import Mathlib

/-!
Verification of the Symgen job-orchestration frontend and the spec-modelled
job orchestration engine. Definitions are shallow embeddings of the
TypeScript source in `frontend/app/generator/page.tsx`, `lib/websocket.ts`
and `lib/api.ts`; backend components that are not part of the checked-in
sources (the admission gate, queue and cancel endpoint) are modelled from
the specification text and marked as such in their doc comments.
-/

namespace Symgen

/-- Job status union from `lib/api.ts`:
`"pending" | "pulling_image" | "running" | "downloading_kernel" |
"generating_symbol" | "completed" | "failed"`. -/
inductive SymGenStatus where
  | pending
  | pulling_image
  | running
  | downloading_kernel
  | generating_symbol
  | completed
  | failed
deriving DecidableEq, Fintype

/-- Job record, shallow embedding of the `SymGenJob` interface in `lib/api.ts`
(the per-distro version fields are collapsed into one optional string, which
is how the UI consumes them via `getJobVersion`). -/
structure SymGenJob where
  id : Int
  kernel_version : String
  distro : String
  version : Option String
  status : SymGenStatus
  status_message : Option String
  error_message : Option String
  symbol_filename : Option String
  symbol_file_size : Option Nat
  download_count : Nat
  created_at : String
deriving DecidableEq

/-- Statuses the UI treats as in progress, from `isJobInProgress` in
`generator/page.tsx`. -/
def inProgressStatuses : List SymGenStatus :=
  [.pending, .pulling_image, .running, .downloading_kernel, .generating_symbol]

/-- Embedding of `isJobInProgress` (generator/page.tsx): membership of the
status in the five-element in-progress list. -/
def isJobInProgress (s : SymGenStatus) : Bool :=
  inProgressStatuses.contains s

/-- Terminal statuses: `completed` and `failed` (spec section 4.2; the UI
renders the delete affordance exactly for these two statuses). -/
def isTerminalStatus (s : SymGenStatus) : Bool :=
  s == .completed || s == .failed

/-- Embedding of `getProgressValue` (generator/page.tsx). -/
def getProgressValue : SymGenStatus → Nat
  | .pending => 0
  | .pulling_image => 20
  | .running => 30
  | .downloading_kernel => 50
  | .generating_symbol => 80
  | .completed => 100
  | .failed => 100

/-- Success-path order of statuses (spec section 4.2). -/
def successPath : List SymGenStatus :=
  [.pending, .pulling_image, .running, .downloading_kernel, .generating_symbol, .completed]

/-- One engine transition on statuses: either the next step of the success
path, or a transition from a non-terminal status to `failed` (spec section
4.2: `failed` reachable from every non-terminal state, cancellation forces
any non-terminal state to `failed`). A job whose status never regresses has
a status history that is a chain of these steps. -/
def statusStepB (s t : SymGenStatus) : Bool :=
  (match s, t with
   | .pending, .pulling_image => true
   | .pulling_image, .running => true
   | .running, .downloading_kernel => true
   | .downloading_kernel, .generating_symbol => true
   | .generating_symbol, .completed => true
   | _, _ => false)
  || (!(isTerminalStatus s) && t == .failed)

/-- C4: a job status is one of exactly seven values; exactly `completed` and
`failed` are terminal, and the UI classifies a job as in progress if and
only if its status is one of the five non-terminal values. -/
theorem claim_C4_status_partition :
    Fintype.card SymGenStatus = 7 ∧
    (∀ s : SymGenStatus,
      (isJobInProgress s = true ↔ (s ≠ .completed ∧ s ≠ .failed)) ∧
      (isTerminalStatus s = true ↔ (s = .completed ∨ s = .failed)) ∧
      isJobInProgress s = !(isTerminalStatus s)) := by
  refine ⟨by decide, ?_⟩
  decide

/-- Progress is monotone along one engine status step. -/
theorem getProgressValue_mono_step :
    ∀ s t : SymGenStatus, statusStepB s t = true →
      getProgressValue s ≤ getProgressValue t := by
  decide

/-- C7: the progress value is strictly increasing along the success-path
order (values 0, 20, 30, 50, 80, 100), `failed` also maps to 100, and for
any status history that never regresses (a chain of engine status steps)
the displayed progress is monotone non-decreasing. -/
theorem claim_C7_progress_monotone :
    (∀ i j : Fin 6, i < j →
      getProgressValue (successPath.getD i .pending)
        < getProgressValue (successPath.getD j .pending)) ∧
    getProgressValue .failed = 100 ∧
    (∀ s t : SymGenStatus, statusStepB s t = true →
      getProgressValue s ≤ getProgressValue t) ∧
    (∀ hist : List SymGenStatus,
      List.Chain' (fun a b => statusStepB a b = true) hist →
      List.Pairwise (fun a b => getProgressValue a ≤ getProgressValue b) hist) := by
  refine ⟨by decide, rfl, getProgressValue_mono_step, ?_⟩
  intro hist hchain
  have h2 : List.Chain' (fun a b => getProgressValue a ≤ getProgressValue b) hist :=
    hchain.imp (fun a b h => getProgressValue_mono_step a b h)
  haveI : IsTrans SymGenStatus (fun a b => getProgressValue a ≤ getProgressValue b) :=
    ⟨fun _ _ _ h1 h2 => le_trans h1 h2⟩
  exact List.chain'_iff_pairwise.mp h2

/-- Witness for C7 at concrete inputs: progress strictly increases from
`pending` to `pulling_image`, and a concrete non-regressing history has
pairwise non-decreasing progress. -/
theorem claim_C7_progress_monotone_witness :
    getProgressValue (successPath.getD (0 : Fin 6) .pending)
      < getProgressValue (successPath.getD (1 : Fin 6) .pending) ∧
    List.Pairwise (fun a b => getProgressValue a ≤ getProgressValue b)
      [SymGenStatus.pending, .pulling_image, .failed] :=
  ⟨claim_C7_progress_monotone.1 0 1 (by decide),
   claim_C7_progress_monotone.2.2.2 [.pending, .pulling_image, .failed]
     (List.chain'_cons.mpr ⟨by decide, List.chain'_cons.mpr ⟨by decide, by simp⟩⟩)⟩

/-- Index stored for a job id by `new Map(prev.map((job, i) => [job.id, i]))`
in `handleWebSocketMessage` (generator/page.tsx): since JS Map insertion
overwrites earlier entries with the same key, the stored index is that of
the last occurrence of the id. -/
def lastIndexOfId : List SymGenJob → Int → Option Nat
  | [], _ => none
  | j :: rest, key =>
    match lastIndexOfId rest key with
    | some i => some (i + 1)
    | none => if j.id == key then some 0 else none

/-- Embedding of the `setJobs` updater inside `handleWebSocketMessage`
(generator/page.tsx): replace the displayed entry with the snapshot when the
id is present, otherwise prepend the snapshot. -/
def handleJobUpdate (updatedJob : SymGenJob) (prev : List SymGenJob) : List SymGenJob :=
  match lastIndexOfId prev updatedJob.id with
  | some index => prev.set index updatedJob
  | none => updatedJob :: prev

/-- WebSocket messages observed by the generator page: a `job_update`
message carries a full `SymGenJob` snapshot; anything else is ignored by
the jobs-list handler. -/
inductive WsMessage where
  | job_update (job : SymGenJob)
  | otherMsg (t : String)
deriving DecidableEq

/-- Embedding of `handleWebSocketMessage` (generator/page.tsx), restricted
to its effect on the displayed jobs list. -/
def handleWebSocketMessage (message : WsMessage) (prev : List SymGenJob) : List SymGenJob :=
  match message with
  | .job_update job => handleJobUpdate job prev
  | .otherMsg _ => prev

theorem lastIndexOfId_some {prev : List SymGenJob} {key : Int} {i : Nat}
    (h : lastIndexOfId prev key = some i) :
    ∃ j, prev[i]? = some j ∧ j.id = key := by
  induction prev generalizing i with
  | nil => simp [lastIndexOfId] at h
  | cons j rest ih =>
    unfold lastIndexOfId at h
    cases hr : lastIndexOfId rest key with
    | some k =>
      rw [hr] at h
      cases h
      obtain ⟨x, hx, hid⟩ := ih hr
      exact ⟨x, by simpa using hx, hid⟩
    | none =>
      rw [hr] at h
      by_cases hid : j.id = key
      · simp [hid] at h
        cases h
        exact ⟨j, by simp, hid⟩
      · simp [hid] at h

theorem lastIndexOfId_none {prev : List SymGenJob} {key : Int}
    (h : lastIndexOfId prev key = none) :
    ∀ j ∈ prev, j.id ≠ key := by
  induction prev with
  | nil => simp
  | cons j rest ih =>
    unfold lastIndexOfId at h
    cases hr : lastIndexOfId rest key with
    | some k => rw [hr] at h; cases h
    | none =>
      rw [hr] at h
      intro x hx
      rcases List.mem_cons.mp hx with rfl | hmem
      · intro hk
        simp [hk] at h
      · exact ih hr x hmem

/-- C6: a `job_update` message carries a full job snapshot, and the observer
resynchronizes by wholesale replacement: when an entry with the snapshot id
is displayed, exactly that entry is replaced by the snapshot itself (no
field-wise merge) and every other entry is untouched; when no entry has
that id, the snapshot is inserted as a new entry at the front. -/
theorem claim_C6_snapshot_replacement :
    ∀ (snap : SymGenJob) (prev : List SymGenJob),
      ((∃ j ∈ prev, j.id = snap.id) →
        ∃ i, i < prev.length ∧ (∃ j, prev[i]? = some j ∧ j.id = snap.id) ∧
          handleWebSocketMessage (.job_update snap) prev = prev.set i snap ∧
          (prev.set i snap)[i]? = some snap ∧
          (∀ k, k ≠ i → (prev.set i snap)[k]? = prev[k]?)) ∧
      ((∀ j ∈ prev, j.id ≠ snap.id) →
        handleWebSocketMessage (.job_update snap) prev = snap :: prev) := by
  intro snap prev
  constructor
  · intro hmem
    cases hidx : lastIndexOfId prev snap.id with
    | none =>
      obtain ⟨j, hj, hid⟩ := hmem
      exact absurd hid (lastIndexOfId_none hidx j hj)
    | some i =>
      obtain ⟨j, hj, hid⟩ := lastIndexOfId_some hidx
      have hlt : i < prev.length := by
        by_contra hge
        rw [List.getElem?_eq_none (Nat.le_of_not_lt hge)] at hj
        cases hj
      refine ⟨i, hlt, ⟨j, hj, hid⟩, ?_, ?_, ?_⟩
      · simp [handleWebSocketMessage, handleJobUpdate, hidx]
      · exact List.getElem?_set_eq_of_lt snap hlt
      · intro k hk
        exact List.getElem?_set_ne (Ne.symm hk)
  · intro hnone
    cases hidx : lastIndexOfId prev snap.id with
    | none => simp [handleWebSocketMessage, handleJobUpdate, hidx]
    | some i =>
      obtain ⟨j, hj, hid⟩ := lastIndexOfId_some hidx
      exact absurd hid (hnone j (List.getElem?_mem hj))

/-- Concrete job fixture used by witnesses. -/
def exJobA : SymGenJob :=
  { id := 1, kernel_version := "5.15.0-91-generic", distro := "ubuntu",
    version := some "22.04", status := .pending, status_message := none,
    error_message := none, symbol_filename := none, symbol_file_size := none,
    download_count := 0, created_at := "2024-01-01T00:00:00Z" }

/-- Fresh snapshot of the same job id as `exJobA`, with a later status. -/
def exJobA2 : SymGenJob :=
  { exJobA with status := .running, status_message := some "Container started" }

/-- Concrete job fixture with a different id. -/
def exJobB : SymGenJob :=
  { exJobA with
    id := 2
    kernel_version := "6.1.0-18-amd64"
    distro := "debian"
    version := some "12" }

/-- Witness for C6 at concrete inputs: replacing a displayed job and
inserting an unseen one. -/
theorem claim_C6_snapshot_replacement_witness :
    (∃ i, i < 1 ∧
      (∃ j, [exJobA][i]? = some j ∧ j.id = exJobA2.id) ∧
      handleWebSocketMessage (.job_update exJobA2) [exJobA] = [exJobA].set i exJobA2 ∧
      ([exJobA].set i exJobA2)[i]? = some exJobA2 ∧
      (∀ k, k ≠ i → ([exJobA].set i exJobA2)[k]? = [exJobA][k]?)) ∧
    handleWebSocketMessage (.job_update exJobB) [exJobA] = [exJobB, exJobA] :=
  ⟨(claim_C6_snapshot_replacement exJobA2 [exJobA]).1
      ⟨exJobA, by simp, by decide⟩,
   (claim_C6_snapshot_replacement exJobB [exJobA]).2
      (by intro j hj; simp at hj; subst hj; decide)⟩

/-- Job stored for an id by `new Map(response.items.map(j => [j.id, j]))` in
`fetchJobs` (generator/page.tsx); JS Map insertion overwrites earlier
entries with the same key, so the stored job is the last occurrence. -/
def lastJobWithId : List SymGenJob → Int → Option SymGenJob
  | [], _ => none
  | f :: rest, key =>
    match lastJobWithId rest key with
    | some g => some g
    | none => if f.id == key then some f else none

/-- Embedding of the non-initial (polling) branch of the `setJobs` updater
in `fetchJobs` (generator/page.tsx):
`prev.map(job => fetchedMap.get(job.id) || job)`. -/
def pollMergeJobs (prev fetched : List SymGenJob) : List SymGenJob :=
  prev.map (fun job => (lastJobWithId fetched job.id).getD job)

/-- Embedding of the `setJobs` update performed by `fetchJobs`
(generator/page.tsx): a full fetch replaces the list wholesale, a polling
fetch merges into the displayed list. -/
def fetchJobsUpdate (isInitialFetch : Bool) (prev fetched : List SymGenJob) :
    List SymGenJob :=
  if isInitialFetch then fetched else pollMergeJobs prev fetched

theorem lastJobWithId_some {fetched : List SymGenJob} {key : Int} {f : SymGenJob}
    (h : lastJobWithId fetched key = some f) : f ∈ fetched ∧ f.id = key := by
  induction fetched with
  | nil => simp [lastJobWithId] at h
  | cons g rest ih =>
    unfold lastJobWithId at h
    cases hr : lastJobWithId rest key with
    | some x =>
      rw [hr] at h
      cases h
      obtain ⟨hmem, hid⟩ := ih hr
      exact ⟨List.mem_cons_of_mem _ hmem, hid⟩
    | none =>
      rw [hr] at h
      by_cases hid : g.id = key
      · simp [hid] at h
        cases h
        exact ⟨List.mem_cons_self _ _, hid⟩
      · simp [hid] at h

theorem lastJobWithId_none {fetched : List SymGenJob} {key : Int}
    (h : lastJobWithId fetched key = none) : ∀ f ∈ fetched, f.id ≠ key := by
  induction fetched with
  | nil => simp
  | cons g rest ih =>
    unfold lastJobWithId at h
    cases hr : lastJobWithId rest key with
    | some x => rw [hr] at h; cases h
    | none =>
      rw [hr] at h
      intro f hf
      rcases List.mem_cons.mp hf with rfl | hmem
      · intro hk
        simp [hk] at h
      · exact ih hr f hmem

/-- C8: a polling (non-initial) fetch keeps the displayed list membership
and order unchanged: the merged list has the same length, the entry at each
position keeps its job id, and each entry is either replaced by a fetched
job with the same id or kept as-is when no fetched job has its id; an
initial fetch replaces the list wholesale with the fetched page. -/
theorem claim_C8_poll_merge_frame :
    ∀ (prev fetched : List SymGenJob),
      fetchJobsUpdate true prev fetched = fetched ∧
      (fetchJobsUpdate false prev fetched).length = prev.length ∧
      (∀ (i : Nat) (j : SymGenJob), prev[i]? = some j →
        ∃ r, (fetchJobsUpdate false prev fetched)[i]? = some r ∧ r.id = j.id ∧
          ((r ∈ fetched) ∨ (r = j ∧ ∀ f ∈ fetched, f.id ≠ j.id))) := by
  intro prev fetched
  refine ⟨rfl, by simp [fetchJobsUpdate, pollMergeJobs], ?_⟩
  intro i j hj
  refine ⟨(lastJobWithId fetched j.id).getD j, ?_, ?_, ?_⟩
  · simp [fetchJobsUpdate, pollMergeJobs, List.getElem?_map, hj]
  · cases hr : lastJobWithId fetched j.id with
    | some f => simpa [hr] using (lastJobWithId_some hr).2
    | none => simp [hr]
  · cases hr : lastJobWithId fetched j.id with
    | some f => exact Or.inl (by simpa [hr] using (lastJobWithId_some hr).1)
    | none => exact Or.inr ⟨by simp [hr], lastJobWithId_none hr⟩

/-- Witness for C8 at concrete inputs: merging a fetched update for `exJobA`
into the displayed list `[exJobA, exJobB]`. -/
theorem claim_C8_poll_merge_frame_witness :
    fetchJobsUpdate true [exJobA, exJobB] [exJobA2] = [exJobA2] ∧
    (fetchJobsUpdate false [exJobA, exJobB] [exJobA2]).length = 2 ∧
    (∃ r, (fetchJobsUpdate false [exJobA, exJobB] [exJobA2])[0]? = some r ∧
      r.id = exJobA.id ∧
      ((r ∈ [exJobA2]) ∨ (r = exJobA ∧ ∀ f ∈ [exJobA2], f.id ≠ exJobA.id))) :=
  ⟨(claim_C8_poll_merge_frame [exJobA, exJobB] [exJobA2]).1,
   (claim_C8_poll_merge_frame [exJobA, exJobB] [exJobA2]).2.1,
   (claim_C8_poll_merge_frame [exJobA, exJobB] [exJobA2]).2.2 0 exJobA (by simp)⟩

/-- ReadyState value `WebSocket.OPEN` from the browser WebSocket API; the
other ready states are CONNECTING 0, CLOSING 2, CLOSED 3. -/
def WebSocketOPEN : Nat := 1

/-- Argument of the `send` function in `lib/websocket.ts`: either a string
or an object (`typeof data === "string"` branches on this). -/
inductive SendPayload (α : Type) where
  | strData (s : String)
  | objData (o : α)

/-- Embedding of `send` in `lib/websocket.ts`: the socket is `none` when
`wsRef.current` is null, otherwise `some readyState`. The result is the
transmitted frame, or `none` when nothing is sent. `JSON.stringify` is
abstracted as the `stringify` argument. The function is total, so send
never throws. -/
def wsSend {α : Type} (stringify : α → String) (sock : Option Nat)
    (data : SendPayload α) : Option String :=
  match sock with
  | some rs =>
    if rs == WebSocketOPEN then
      some (match data with
            | .strData s => s
            | .objData o => stringify o)
    else none
  | none => none

/-- C9: send transmits only when a socket exists and its readyState is OPEN;
for an absent socket or any other readyState it does nothing (and, being a
total function, never throws); a string argument is sent verbatim and an
object argument is serialized with the JSON serializer. -/
theorem claim_C9_send_guard :
    ∀ (α : Type) (stringify : α → String),
      (∀ data : SendPayload α, wsSend stringify none data = none) ∧
      (∀ (rs : Nat) (data : SendPayload α), rs ≠ WebSocketOPEN →
        wsSend stringify (some rs) data = none) ∧
      (∀ s : String, wsSend stringify (some WebSocketOPEN) (.strData s) = some s) ∧
      (∀ o : α, wsSend stringify (some WebSocketOPEN) (.objData o) = some (stringify o)) ∧
      (∀ (sock : Option Nat) (data : SendPayload α),
        (wsSend stringify sock data).isSome ↔ sock = some WebSocketOPEN) := by
  intro α stringify
  refine ⟨fun data => rfl, ?_, fun s => rfl, fun o => rfl, ?_⟩
  · intro rs data hrs
    simp [wsSend, hrs]
  · intro sock data
    cases sock with
    | none => simp [wsSend]
    | some rs =>
      by_cases h : rs = WebSocketOPEN
      · subst h
        cases data <;> simp [wsSend]
      · simp [wsSend, h]

/-- Witness for C9 at concrete inputs: a closed socket sends nothing, an
open socket sends the string verbatim. -/
theorem claim_C9_send_guard_witness :
    wsSend (fun n : Nat => toString n) (some 3) (.strData "ping") = none ∧
    wsSend (fun n : Nat => toString n) (some WebSocketOPEN) (.strData "ping") = some "ping" :=
  ⟨(claim_C9_send_guard Nat (fun n => toString n)).2.1 3 (.strData "ping") (by decide),
   (claim_C9_send_guard Nat (fun n => toString n)).2.2.1 "ping"⟩

/-- Configuration options of `useWebSocket` (lib/websocket.ts) relevant to
reconnection. -/
structure WsConfig where
  reconnect : Bool
  reconnectDelay : Nat
  maxReconnectAttempts : Nat
deriving DecidableEq

/-- Default option values from the destructuring defaults in `useWebSocket`:
`reconnect = true, reconnectDelay = 3000, maxReconnectAttempts = 10`. -/
def defaultWsConfig : WsConfig :=
  { reconnect := true, reconnectDelay := 3000, maxReconnectAttempts := 10 }

/-- Mutable hook state relevant to reconnection:
`reconnectAttemptsRef.current`. -/
structure WsState where
  attempts : Nat
deriving DecidableEq

/-- Socket lifecycle events observed by the handlers installed in `connect`
(lib/websocket.ts): `ws.onopen`, and `ws.onclose` with a close code. -/
inductive WsEvent where
  | opened
  | closedEvt (code : Nat)
deriving DecidableEq

/-- Embedding of the `onopen` and `onclose` handlers in `connect`
(lib/websocket.ts), restricted to the reconnect bookkeeping: the second
component is the delay of the reconnect that the handler schedules via
`setTimeout`, or `none` when no reconnect is scheduled. `onopen` resets the
attempt counter; `onclose` schedules a reconnect after `reconnectDelay`
only when the option is enabled, the close code is not 1000, and the
attempt counter is below the maximum, incrementing the counter. -/
def wsStep (cfg : WsConfig) (s : WsState) : WsEvent → WsState × Option Nat
  | .opened => ({ attempts := 0 }, none)
  | .closedEvt code =>
    if cfg.reconnect ∧ code ≠ 1000 ∧ s.attempts < cfg.maxReconnectAttempts then
      ({ attempts := s.attempts + 1 }, some cfg.reconnectDelay)
    else (s, none)

/-- Run of the reconnect bookkeeping over a sequence of socket events,
collecting the delays of all scheduled reconnects in order. -/
def wsRun (cfg : WsConfig) : WsState → List WsEvent → WsState × List Nat
  | s, [] => (s, [])
  | s, e :: es =>
    let p := wsStep cfg s e
    let q := wsRun cfg p.1 es
    (q.1, p.2.toList ++ q.2)

theorem wsRun_schedule_bound (cfg : WsConfig) :
    ∀ (events : List WsEvent) (s : WsState),
      (∀ e ∈ events, e ≠ WsEvent.opened) →
      (wsRun cfg s events).2.length ≤ cfg.maxReconnectAttempts - s.attempts := by
  intro events
  induction events with
  | nil => intro s _; simp [wsRun]
  | cons e es ih =>
    intro s hno
    have hes : ∀ x ∈ es, x ≠ WsEvent.opened := fun x hx => hno x (List.mem_cons_of_mem _ hx)
    cases e with
    | opened => exact absurd rfl (hno .opened (List.mem_cons_self _ _))
    | closedEvt code =>
      by_cases hc : cfg.reconnect ∧ code ≠ 1000 ∧ s.attempts < cfg.maxReconnectAttempts
      · have h1 : (wsRun cfg ⟨s.attempts + 1⟩ es).2.length ≤
            cfg.maxReconnectAttempts - (s.attempts + 1) := by
          simpa using ih ⟨s.attempts + 1⟩ hes
        have hlt : s.attempts < cfg.maxReconnectAttempts := hc.2.2
        simp only [wsRun, wsStep, if_pos hc, Option.toList_some,
          List.singleton_append, List.length_cons]
        omega
      · simp only [wsRun, wsStep, if_neg hc, Option.toList_none, List.nil_append]
        exact ih s hes

theorem wsRun_delays (cfg : WsConfig) :
    ∀ (events : List WsEvent) (s : WsState),
      ∀ d ∈ (wsRun cfg s events).2, d = cfg.reconnectDelay := by
  intro events
  induction events with
  | nil => intro s d hd; simp [wsRun] at hd
  | cons e es ih =>
    intro s d hd
    cases e with
    | opened =>
      simp only [wsRun, wsStep] at hd
      simp only [Option.toList_none, List.nil_append] at hd
      exact ih _ d hd
    | closedEvt code =>
      by_cases hc : cfg.reconnect ∧ code ≠ 1000 ∧ s.attempts < cfg.maxReconnectAttempts
      · simp only [wsRun, wsStep, if_pos hc, Option.toList_some,
          List.cons_append, List.nil_append, List.mem_cons] at hd
        rcases hd with rfl | hd
        · rfl
        · exact ih _ d hd
      · simp only [wsRun, wsStep, if_neg hc, Option.toList_none, List.nil_append] at hd
        exact ih _ d hd

/-- C10: a close with code 1000 never schedules a reconnect; over any
sequence of close events without a successful open, starting from a fresh
attempt counter, at most `maxReconnectAttempts` reconnects are scheduled
(the default maximum is 10), every scheduled reconnect uses the configured
delay, and a successful open resets the attempt counter to zero. -/
theorem claim_C10_reconnect_policy :
    (∀ (cfg : WsConfig) (s : WsState), (wsStep cfg s (.closedEvt 1000)).2 = none) ∧
    (∀ (cfg : WsConfig) (events : List WsEvent),
      (∀ e ∈ events, e ≠ WsEvent.opened) →
      (wsRun cfg { attempts := 0 } events).2.length ≤ cfg.maxReconnectAttempts) ∧
    (∀ (cfg : WsConfig) (s : WsState) (events : List WsEvent),
      ∀ d ∈ (wsRun cfg s events).2, d = cfg.reconnectDelay) ∧
    (∀ (cfg : WsConfig) (s : WsState), ((wsStep cfg s .opened).1).attempts = 0) ∧
    defaultWsConfig.maxReconnectAttempts = 10 ∧
    defaultWsConfig.reconnectDelay = 3000 := by
  refine ⟨?_, ?_, ?_, fun cfg s => rfl, rfl, rfl⟩
  · intro cfg s
    simp [wsStep]
  · intro cfg events hno
    simpa using wsRun_schedule_bound cfg events { attempts := 0 } hno
  · intro cfg s events
    exact wsRun_delays cfg events s

/-- Witness for C10 at concrete inputs: eleven consecutive abnormal closes
under the default configuration schedule exactly ten reconnects, all with
the default delay, and a normal close schedules none. -/
theorem claim_C10_reconnect_policy_witness :
    (wsStep defaultWsConfig { attempts := 0 } (.closedEvt 1000)).2 = none ∧
    (wsRun defaultWsConfig { attempts := 0 }
      (List.replicate 11 (WsEvent.closedEvt 1006))).2.length ≤ 10 ∧
    ∀ d ∈ (wsRun defaultWsConfig { attempts := 0 }
      (List.replicate 11 (WsEvent.closedEvt 1006))).2, d = 3000 :=
  ⟨claim_C10_reconnect_policy.1 defaultWsConfig { attempts := 0 },
   claim_C10_reconnect_policy.2.1 defaultWsConfig
     (List.replicate 11 (WsEvent.closedEvt 1006))
     (by intro e he; rw [List.eq_of_mem_replicate he]; decide),
   claim_C10_reconnect_policy.2.2.1 defaultWsConfig { attempts := 0 }
     (List.replicate 11 (WsEvent.closedEvt 1006))⟩

/-- Queue status record from `lib/api.ts` (src/unnamed/part_001, QueueStatus):
exactly the fields `running`, `queued` and `max_concurrent`. -/
structure QueueStatus where
  running : Nat
  queued : Nat
  max_concurrent : Nat
deriving DecidableEq

/-- Modelled from the spec: the Queue of section 3 — the engine source is
not under src/. It holds the FIFO backlog of admitted-but-not-yet-running
job ids, the count of currently running jobs, and the bound
`max_concurrent`. -/
structure SchedQueue where
  running : Nat
  backlog : List Nat
  maxConcurrent : Nat
deriving DecidableEq

/-- Modelled from the spec: the operational status check of section 6
exposes current `running_count`, `queued_count`, `max_concurrent`, which
the frontend receives as the `QueueStatus` payload of
`GET /api/symgen/status`. -/
def queueStatusOf (q : SchedQueue) : QueueStatus :=
  { running := q.running, queued := q.backlog.length, max_concurrent := q.maxConcurrent }

/-- Modelled from the spec: the admission step of section 4.1 — if
`running_count < max_concurrent`, atomically increment `running_count` and
start the job immediately; otherwise the job stays queued in FIFO order. -/
def enqueueJob (q : SchedQueue) (jid : Nat) : SchedQueue :=
  if q.running < q.maxConcurrent then { q with running := q.running + 1 }
  else { q with backlog := q.backlog ++ [jid] }

/-- Modelled from the spec: the terminal-transition step of sections 4.2 and
5 — release the concurrency slot, and if the backlog is non-empty, pop the
oldest queued job and grant it the slot, as one atomic step. -/
def releaseQueue (q : SchedQueue) : SchedQueue :=
  match q.backlog with
  | [] => { q with running := q.running - 1 }
  | _ :: rest => { q with running := q.running - 1 + 1, backlog := rest }

/-- Modelled from the spec: the two atomic mutations of the queue state
(section 5: increment on start, decrement plus pop-backlog on terminal
transition, each applied as one atomic step, so any concurrent execution is
an interleaving of these steps). A release is only performed by a job that
holds a slot, so it carries the hypothesis that some job is running. -/
inductive QueueStep : SchedQueue → SchedQueue → Prop where
  | enqueueStep (q : SchedQueue) (jid : Nat) : QueueStep q (enqueueJob q jid)
  | release (q : SchedQueue) (h : 0 < q.running) : QueueStep q (releaseQueue q)

/-- States reachable from the process-start queue (empty backlog, zero
running jobs) by interleaved atomic admissions and completions. -/
inductive QueueReachable : SchedQueue → Prop where
  | init (m : Nat) : QueueReachable { running := 0, backlog := [], maxConcurrent := m }
  | step {q q' : SchedQueue} :
      QueueReachable q → QueueStep q q' → QueueReachable q'

theorem queueStep_preserves_bound {q q' : SchedQueue} (hs : QueueStep q q')
    (h : q.running ≤ q.maxConcurrent) : q'.running ≤ q'.maxConcurrent := by
  cases hs with
  | enqueueStep jid =>
    unfold enqueueJob
    by_cases hlt : q.running < q.maxConcurrent
    · simp only [if_pos hlt]
      exact hlt
    · simp only [if_neg hlt]
      exact h
  | release hpos =>
    unfold releaseQueue
    cases hb : q.backlog with
    | nil => exact Nat.le_trans (Nat.sub_le _ _) h
    | cons x rest =>
      simp only
      omega

/-- C3: in every reachable queue state — under any interleaving of the
atomic submission and completion steps — the number of running jobs never
exceeds `max_concurrent`, and the operational status check exposes exactly
the current running count, the current backlog length, and
`max_concurrent`. -/
theorem claim_C3_running_bounded :
    ∀ q : SchedQueue, QueueReachable q →
      q.running ≤ q.maxConcurrent ∧
      queueStatusOf q = { running := q.running, queued := q.backlog.length,
                          max_concurrent := q.maxConcurrent } ∧
      (queueStatusOf q).running ≤ (queueStatusOf q).max_concurrent := by
  intro q hreach
  have hrun : q.running ≤ q.maxConcurrent := by
    induction hreach with
    | init m => exact Nat.zero_le m
    | step hr hs ih => exact queueStep_preserves_bound hs ih
  exact ⟨hrun, rfl, hrun⟩

/-- Witness for C3 at a concrete reachable state: admit two jobs into a
queue with `max_concurrent = 1` (the second queues), then complete one. -/
theorem claim_C3_running_bounded_witness :
    (releaseQueue (enqueueJob (enqueueJob
        { running := 0, backlog := [], maxConcurrent := 1 } 1) 2)).running ≤
      (releaseQueue (enqueueJob (enqueueJob
        { running := 0, backlog := [], maxConcurrent := 1 } 1) 2)).maxConcurrent :=
  (claim_C3_running_bounded _
    (QueueReachable.step
      (QueueReachable.step
        (QueueReachable.step (QueueReachable.init 1) (QueueStep.enqueueStep _ 1))
        (QueueStep.enqueueStep _ 2))
      (QueueStep.release _ (by decide)))).1

/-- Generation request: the (kernel, distro, version) triple submitted to
`POST /api/symgen/generate`. -/
structure GenRequest where
  kernel : String
  distro : String
  version : String
deriving DecidableEq

/-- Modelled from the spec: whitespace trimming used by the fingerprint
normalization of section 4.1, written at the character-list level. -/
def trimStr (s : String) : String :=
  String.mk (((s.data.dropWhile Char.isWhitespace).reverse.dropWhile
    Char.isWhitespace).reverse)

/-- Modelled from the spec: fingerprint computation of section 4.1 — the
dedup key is the case-normalized, trimmed (distro, distro-version,
kernel-version) triple. -/
def normalizePart (s : String) : String :=
  String.mk ((trimStr s).data.map Char.toLower)

/-- Modelled from the spec: the derived deterministic fingerprint key of
section 3. -/
def fingerprintOf (r : GenRequest) : String :=
  normalizePart r.distro ++ "|" ++ normalizePart r.version ++ "|" ++ normalizePart r.kernel

/-- Modelled from the spec: the engine-side job record of section 3 (the
engine source is not under src/): id, fingerprint, status, error reason,
and whether the produced artifact still exists. -/
structure EJob where
  id : Nat
  fingerprint : String
  status : SymGenStatus
  errorReason : Option String
  artifactExists : Bool
deriving DecidableEq

/-- Modelled from the spec: the engine state owned by the admission gate and
job state machine — all jobs, the slot count, the FIFO backlog of queued
job ids, the concurrency bound, and the next fresh job id. -/
structure EngineState where
  jobs : List EJob
  running : Nat
  backlog : List Nat
  maxConcurrent : Nat
  nextId : Nat
deriving DecidableEq

/-- Outcome of `submit` as seen by the caller (spec sections 4.1 and 7):
`invalidRequest` never creates a job; `cacheHit` returns an existing
completed job; `alreadyInProgress` is an attach signal, distinct from
success; `started` and `queuedJob` return a newly created job. -/
inductive SubmitOutcome where
  | invalidRequest
  | cacheHit (j : EJob)
  | alreadyInProgress (j : EJob)
  | started (j : EJob)
  | queuedJob (j : EJob)
deriving DecidableEq

/-- Predicate for the idempotent short-circuit of section 4.1: a terminal
completed job for the fingerprint whose artifact still exists. -/
def completedHit (fp : String) (j : EJob) : Bool :=
  j.fingerprint == fp && j.status == .completed && j.artifactExists

/-- Predicate for the duplicate check of section 4.1: a non-terminal job
for the fingerprint. -/
def nonTerminalHit (fp : String) (j : EJob) : Bool :=
  j.fingerprint == fp && !(isTerminalStatus j.status)

/-- Modelled from the spec: the fresh job created by the admission gate
(section 4.1), with the next fresh id and the request fingerprint. -/
def newEngineJob (st : EngineState) (r : GenRequest) (s : SymGenStatus) : EJob :=
  { id := st.nextId, fingerprint := fingerprintOf r, status := s,
    errorReason := none, artifactExists := false }

/-- Modelled from the spec: `submit(kernel, distro, version) -> Job` of
section 4.1 (the engine source is not under src/). Validation failure never
creates a job; a completed job with an existing artifact is returned
unchanged; a non-terminal job for the fingerprint is returned unchanged
with the `AlreadyInProgress` signal; otherwise a new job is created, and it
is started immediately (transition to `pulling_image`, slot incremented)
when a slot is free, else it is appended to the FIFO backlog in `pending`.
The `knownProfile` argument stands for the lookup of the (distro, version)
pair in the distro-profile registry. -/
def submit (st : EngineState) (r : GenRequest) (knownProfile : Bool) :
    SubmitOutcome × EngineState :=
  if trimStr r.kernel == "" || !knownProfile then (.invalidRequest, st)
  else
    match st.jobs.find? (completedHit (fingerprintOf r)) with
    | some j => (.cacheHit j, st)
    | none =>
      match st.jobs.find? (nonTerminalHit (fingerprintOf r)) with
      | some j => (.alreadyInProgress j, st)
      | none =>
        if st.running < st.maxConcurrent then
          let j : EJob := newEngineJob st r .pulling_image
          (.started j, { st with
                         jobs := st.jobs ++ [j]
                         running := st.running + 1
                         nextId := st.nextId + 1 })
        else
          let j : EJob := newEngineJob st r .pending
          (.queuedJob j, { st with
                           jobs := st.jobs ++ [j]
                           backlog := st.backlog ++ [j.id]
                           nextId := st.nextId + 1 })

/-- Outcome of the cancel endpoint (spec sections 6 and 8): cancelling a
terminal job is a no-op returning a clear not-cancellable signal. -/
inductive CancelOutcome where
  | cancelled (j : EJob)
  | notCancellable
  | notFound
deriving DecidableEq

/-- Modelled from the spec: marking one engine job as failed with a reason
(section 4.2 cancellation path). -/
def setJobFailed (jobs : List EJob) (jid : Nat) (reason : String) : List EJob :=
  jobs.map (fun j => if j.id == jid then
    { j with status := .failed, errorReason := some reason } else j)

/-- Modelled from the spec: starting the oldest backlog job when a slot is
released (section 4.2: grant slot, transition to `pulling_image`). -/
def startNextFromBacklog (st : EngineState) : EngineState :=
  match st.backlog with
  | [] => st
  | nid :: rest =>
    { st with
      backlog := rest
      running := st.running + 1
      jobs := st.jobs.map (fun j => if j.id == nid then
        { j with status := .pulling_image } else j) }

/-- Modelled from the spec: releasing the slot of a job that reached a
terminal state (section 4.2). -/
def releaseSlot (st : EngineState) : EngineState :=
  startNextFromBacklog { st with running := st.running - 1 }

/-- Modelled from the spec: `cancel(jobId)` of section 6 (the engine source
is not under src/). A non-terminal job is forced to `failed` with reason
`Cancelled`; a queued job is additionally removed from the backlog, a
running job releases its slot; a terminal job is not changed and the caller
gets the not-cancellable signal. -/
def cancelJob (st : EngineState) (jid : Nat) : CancelOutcome × EngineState :=
  match st.jobs.find? (fun j => j.id == jid) with
  | none => (.notFound, st)
  | some j =>
    if isTerminalStatus j.status then (.notCancellable, st)
    else
      let st1 : EngineState := { st with jobs := setJobFailed st.jobs jid "Cancelled" }
      if st.backlog.contains jid then
        (.cancelled j, { st1 with backlog := st1.backlog.filter (fun i => i != jid) })
      else
        (.cancelled j, releaseSlot st1)

/-- Toasts shown by `handleSubmit` in the GenerateDialog
(generator/page.tsx): the success branch distinguishes an already-completed
job from a fresh start by `job.status === "completed"`, and the error
branch distinguishes HTTP 409 from other failures. -/
inductive GenerateToast where
  | symbolExists
  | generationStarted
  | jobAlreadyInProgress
  | failedToStart
deriving DecidableEq

/-- Embedding of `handleSubmit` in the GenerateDialog (generator/page.tsx):
from the result of `symgenApi.generate` (a job, or an HTTP error status),
the toast that is shown and the job passed to `onJobCreated` (none when the
request failed). -/
def handleSubmitEffect (res : Except Nat SymGenJob) :
    GenerateToast × Option SymGenJob :=
  match res with
  | .ok job =>
    ((if job.status == .completed then .symbolExists else .generationStarted), some job)
  | .error stat =>
    ((if stat == 409 then .jobAlreadyInProgress else .failedToStart), none)

/-- Embedding of the `setJobs` update in `handleCancelJob`
(generator/page.tsx): on a successful cancel call, the job with the
cancelled id is recorded as `failed` with error message
`"Cancelled by user"`; every other entry is untouched. -/
def handleCancelJobUpdate (cancelledId : Int) (jobs : List SymGenJob) :
    List SymGenJob :=
  jobs.map (fun j => if j.id == cancelledId then
    { j with status := .failed, error_message := some "Cancelled by user" } else j)

theorem submit_second_attaches {st : EngineState} {r : GenRequest}
    (hk : (trimStr r.kernel == "") = false)
    (hc : st.jobs.find? (completedHit (fingerprintOf r)) = none)
    (hn : st.jobs.find? (nonTerminalHit (fingerprintOf r)) = none) :
    ∃ j : EJob,
      ((submit st r true).1 = .started j ∨ (submit st r true).1 = .queuedJob j) ∧
      submit (submit st r true).2 r true =
        (.alreadyInProgress j, (submit st r true).2) ∧
      isTerminalStatus j.status = false := by
  by_cases hrun : st.running < st.maxConcurrent
  · refine ⟨newEngineJob st r .pulling_image, ?_, ?_, rfl⟩
    · simp [submit, hk, hc, hn, hrun]
    · have hstep : (submit st r true).2 =
          { st with jobs := st.jobs ++ [newEngineJob st r .pulling_image]
                    running := st.running + 1
                    nextId := st.nextId + 1 } := by
        simp [submit, hk, hc, hn, hrun]
      rw [hstep]
      have hc2 : (st.jobs ++ [newEngineJob st r .pulling_image]).find?
          (completedHit (fingerprintOf r)) = none := by
        rw [List.find?_append, hc]
        simp [completedHit, newEngineJob]
      have hn2 : (st.jobs ++ [newEngineJob st r .pulling_image]).find?
          (nonTerminalHit (fingerprintOf r)) = some (newEngineJob st r .pulling_image) := by
        rw [List.find?_append, hn]
        simp [nonTerminalHit, newEngineJob, isTerminalStatus]
      simp [submit, hk, hc2, hn2]
  · refine ⟨newEngineJob st r .pending, ?_, ?_, rfl⟩
    · simp [submit, hk, hc, hn, hrun]
    · have hstep : (submit st r true).2 =
          { st with jobs := st.jobs ++ [newEngineJob st r .pending]
                    backlog := st.backlog ++ [(newEngineJob st r .pending).id]
                    nextId := st.nextId + 1 } := by
        simp [submit, hk, hc, hn, hrun]
      rw [hstep]
      have hc2 : (st.jobs ++ [newEngineJob st r .pending]).find?
          (completedHit (fingerprintOf r)) = none := by
        rw [List.find?_append, hc]
        simp [completedHit, newEngineJob]
      have hn2 : (st.jobs ++ [newEngineJob st r .pending]).find?
          (nonTerminalHit (fingerprintOf r)) = some (newEngineJob st r .pending) := by
        rw [List.find?_append, hn]
        simp [nonTerminalHit, newEngineJob, isTerminalStatus]
      simp [submit, hk, hc2, hn2]

/-- C1: after a first submission of a valid fresh request creates a job
(started or queued), an identical second submission while that job is
non-terminal returns the very same job with the `AlreadyInProgress` signal
and leaves the engine state unchanged; `AlreadyInProgress` is an outcome
distinct from every success outcome, and the client observes it through
the dedicated HTTP 409 branch of `handleSubmit`, which shows the
already-in-progress toast and does not register a new job. -/
theorem claim_C1_duplicate_submit :
    (∀ (st : EngineState) (r : GenRequest),
      (trimStr r.kernel == "") = false →
      st.jobs.find? (completedHit (fingerprintOf r)) = none →
      st.jobs.find? (nonTerminalHit (fingerprintOf r)) = none →
      ∃ j : EJob,
        ((submit st r true).1 = .started j ∨ (submit st r true).1 = .queuedJob j) ∧
        submit (submit st r true).2 r true =
          (.alreadyInProgress j, (submit st r true).2) ∧
        isTerminalStatus j.status = false) ∧
    (∀ x y : EJob,
      SubmitOutcome.alreadyInProgress x ≠ .started y ∧
      SubmitOutcome.alreadyInProgress x ≠ .queuedJob y ∧
      SubmitOutcome.alreadyInProgress x ≠ .cacheHit y) ∧
    handleSubmitEffect (.error 409) = (.jobAlreadyInProgress, none) ∧
    GenerateToast.jobAlreadyInProgress ≠ .generationStarted ∧
    GenerateToast.jobAlreadyInProgress ≠ .symbolExists := by
  refine ⟨fun st r hk hc hn => submit_second_attaches hk hc hn, ?_, rfl, ?_, ?_⟩
  · intro x y
    refine ⟨?_, ?_, ?_⟩ <;> intro h <;> cases h
  · intro h
    cases h
  · intro h
    cases h

/-- Concrete engine fixture: empty engine with one free slot. -/
def exEngine0 : EngineState :=
  { jobs := [], running := 0, backlog := [], maxConcurrent := 1, nextId := 1 }

/-- Concrete request fixture. -/
def exReq : GenRequest :=
  { kernel := "5.15.0-91-generic", distro := "ubuntu", version := "22.04" }

/-- Witness for C1 at concrete inputs: submitting `exReq` twice to the
empty engine. -/
theorem claim_C1_duplicate_submit_witness :
    ∃ j : EJob,
      ((submit exEngine0 exReq true).1 = .started j ∨
        (submit exEngine0 exReq true).1 = .queuedJob j) ∧
      submit (submit exEngine0 exReq true).2 exReq true =
        (.alreadyInProgress j, (submit exEngine0 exReq true).2) ∧
      isTerminalStatus j.status = false :=
  claim_C1_duplicate_submit.1 exEngine0 exReq (by decide) (by decide) (by decide)

/-- C2: when a completed job with an existing artifact matches the request
fingerprint, `submit` returns that job unchanged and performs no state
change at all (no new container work); the returned job has status
`completed`, while every freshly created job is returned non-completed, so
the caller detects the cache hit exactly by the returned status — which is
what the client `handleSubmit` does, showing the symbol-already-exists
toast if and only if the returned status is `completed`, and registering
the returned job either way. -/
theorem claim_C2_cache_hit :
    (∀ (st : EngineState) (r : GenRequest) (j : EJob),
      (trimStr r.kernel == "") = false →
      st.jobs.find? (completedHit (fingerprintOf r)) = some j →
      submit st r true = (.cacheHit j, st) ∧ j.status = .completed) ∧
    (∀ (st : EngineState) (r : GenRequest) (j : EJob) (st' : EngineState),
      (submit st r true = (.started j, st') ∨ submit st r true = (.queuedJob j, st')) →
      j.status ≠ .completed) ∧
    (∀ job : SymGenJob,
      (handleSubmitEffect (.ok job)).1 = .symbolExists ↔ job.status = .completed) ∧
    (∀ job : SymGenJob, (handleSubmitEffect (.ok job)).2 = some job) := by
  refine ⟨?_, ?_, ?_, fun job => rfl⟩
  · intro st r j hk hfind
    constructor
    · simp [submit, hk, hfind]
    · have hp := List.find?_some hfind
      simp [completedHit] at hp
      exact hp.1.2
  · intro st r j st' h
    have hj : j.status = .pulling_image ∨ j.status = .pending := by
      rcases h with h | h <;>
      · simp only [submit] at h
        split at h
        · cases h
        · split at h
          · cases h
          · split at h
            · cases h
            · split at h <;>
              · rw [Prod.mk.injEq] at h
                first
                | (cases h.1; exact Or.inl rfl)
                | (cases h.1; exact Or.inr rfl)
                | cases h.1
    rcases hj with hj | hj <;> simp [hj]
  · intro job
    by_cases h : job.status = .completed
    · simp [handleSubmitEffect, h]
    · simp [handleSubmitEffect, h]

/-- Concrete engine fixture: engine holding one completed job with an
existing artifact for the fingerprint of `exReq`. -/
def exEngineC : EngineState :=
  { jobs := [{ id := 7, fingerprint := fingerprintOf exReq, status := .completed,
               errorReason := none, artifactExists := true }],
    running := 0, backlog := [], maxConcurrent := 1, nextId := 8 }

/-- Witness for C2 at concrete inputs: resubmitting `exReq` against
`exEngineC` returns the stored completed job and changes nothing. -/
theorem claim_C2_cache_hit_witness :
    submit exEngineC exReq true =
      (.cacheHit { id := 7, fingerprint := fingerprintOf exReq, status := .completed,
                   errorReason := none, artifactExists := true }, exEngineC) ∧
    ((handleSubmitEffect (.ok exJobA)).1 = .symbolExists ↔ exJobA.status = .completed) :=
  ⟨(claim_C2_cache_hit.1 exEngineC exReq _ (by decide) (by decide)).1,
   claim_C2_cache_hit.2.2.1 exJobA⟩

theorem setJobFailed_spec (jobs : List EJob) (jid : Nat) (reason : String) :
    ∀ x ∈ setJobFailed jobs jid reason, x.id = jid →
      x.status = .failed ∧ x.errorReason = some reason := by
  intro x hx hid
  simp only [setJobFailed, List.mem_map] at hx
  obtain ⟨y, hy, hxy⟩ := hx
  by_cases h : y.id = jid
  · rw [if_pos (by simpa using h)] at hxy
    rw [← hxy]
    exact ⟨rfl, rfl⟩
  · rw [if_neg (by simpa using h)] at hxy
    rw [← hxy] at hid
    exact absurd hid h

theorem startNextFromBacklog_keeps {st : EngineState} {jid : Nat}
    (hjid : jid ∉ st.backlog) :
    ∀ x ∈ (startNextFromBacklog st).jobs, x.id = jid → x ∈ st.jobs := by
  intro x hx hid
  unfold startNextFromBacklog at hx
  cases hb : st.backlog with
  | nil =>
    rw [hb] at hx
    exact hx
  | cons nid rest =>
    rw [hb] at hx
    simp only [List.mem_map] at hx
    obtain ⟨y, hy, hxy⟩ := hx
    by_cases h : y.id = nid
    · have hnid : nid ≠ jid := by
        intro he
        rw [hb, he] at hjid
        exact hjid (List.mem_cons_self _ _)
      rw [if_pos (by simpa using h)] at hxy
      rw [← hxy] at hid
      have hid2 : y.id = jid := hid
      rw [h] at hid2
      exact absurd hid2 hnid
    · rw [if_neg (by simpa using h)] at hxy
      rw [hxy] at hy
      exact hy

/-- C5: cancelling a non-terminal job succeeds and leaves that job recorded
as `failed` with the cancellation reason `Cancelled`; cancelling a terminal
job changes nothing and yields the not-cancellable signal; the UI offers
the cancel affordance exactly for non-terminal statuses; and on a
successful cancel call the client records the job as `failed` with error
message `"Cancelled by user"`, leaving every other displayed entry
untouched. -/
theorem claim_C5_cancel :
    (∀ (st : EngineState) (jid : Nat) (j : EJob),
      st.jobs.find? (fun x => x.id == jid) = some j →
      isTerminalStatus j.status = false →
      (cancelJob st jid).1 = .cancelled j ∧
      (∀ x ∈ (cancelJob st jid).2.jobs, x.id = jid →
        x.status = .failed ∧ x.errorReason = some "Cancelled")) ∧
    (∀ (st : EngineState) (jid : Nat) (j : EJob),
      st.jobs.find? (fun x => x.id == jid) = some j →
      isTerminalStatus j.status = true →
      cancelJob st jid = (.notCancellable, st)) ∧
    (∀ s : SymGenStatus, isJobInProgress s = !(isTerminalStatus s)) ∧
    (∀ (jobs : List SymGenJob) (cid : Int) (i : Nat) (j : SymGenJob),
      jobs[i]? = some j →
      ∃ j2, (handleCancelJobUpdate cid jobs)[i]? = some j2 ∧
        (j.id = cid → j2.status = .failed ∧ j2.error_message = some "Cancelled by user") ∧
        (j.id ≠ cid → j2 = j)) := by
  refine ⟨?_, ?_, by decide, ?_⟩
  · intro st jid j hfind hterm
    have hcancel : cancelJob st jid =
        (if st.backlog.contains jid then
          (.cancelled j, { { st with jobs := setJobFailed st.jobs jid "Cancelled" } with
            backlog := st.backlog.filter (fun i => i != jid) })
        else
          (.cancelled j, releaseSlot
            { st with jobs := setJobFailed st.jobs jid "Cancelled" })) := by
      simp [cancelJob, hfind, hterm]
    by_cases hb : st.backlog.contains jid
    · rw [hcancel, if_pos hb]
      exact ⟨rfl, fun x hx hid => setJobFailed_spec st.jobs jid "Cancelled" x hx hid⟩
    · rw [hcancel, if_neg hb]
      refine ⟨rfl, fun x hx hid => ?_⟩
      have hnotmem : jid ∉ st.backlog := by
        intro hmem
        exact hb (by simpa using hmem)
      have hx' : x ∈ (startNextFromBacklog
          { jobs := setJobFailed st.jobs jid "Cancelled", running := st.running - 1,
            backlog := st.backlog, maxConcurrent := st.maxConcurrent,
            nextId := st.nextId }).jobs := hx
      have hx2 := @startNextFromBacklog_keeps
        { jobs := setJobFailed st.jobs jid "Cancelled",
          running := st.running - 1, backlog := st.backlog,
          maxConcurrent := st.maxConcurrent, nextId := st.nextId }
        jid hnotmem x hx' hid
      exact setJobFailed_spec st.jobs jid "Cancelled" x hx2 hid
  · intro st jid j hfind hterm
    simp [cancelJob, hfind, hterm]
  · intro jobs cid i j hj
    refine ⟨(if j.id == cid then
      { j with status := .failed, error_message := some "Cancelled by user" } else j),
      ?_, ?_, ?_⟩
    · simp [handleCancelJobUpdate, List.getElem?_map, hj]
    · intro hid
      simp [hid]
    · intro hid
      simp [hid]

/-- Concrete engine fixture: one running non-terminal job with id 3. -/
def exEngineR : EngineState :=
  { jobs := [{ id := 3, fingerprint := fingerprintOf exReq, status := .running,
               errorReason := none, artifactExists := false }],
    running := 1, backlog := [], maxConcurrent := 1, nextId := 4 }

/-- Witness for C5 at concrete inputs: cancelling the running job 3 in
`exEngineR` succeeds and records it as failed with reason `Cancelled`;
the client-side update stamps the cancelled entry. -/
theorem claim_C5_cancel_witness :
    (cancelJob exEngineR 3).1 =
      .cancelled { id := 3, fingerprint := fingerprintOf exReq, status := .running,
                   errorReason := none, artifactExists := false } ∧
    (∃ j2, (handleCancelJobUpdate 1 [exJobA])[0]? = some j2 ∧
      (exJobA.id = 1 → j2.status = .failed ∧
        j2.error_message = some "Cancelled by user") ∧
      (exJobA.id ≠ 1 → j2 = exJobA)) :=
  ⟨(claim_C5_cancel.1 exEngineR 3 _ (by decide) (by decide)).1,
   claim_C5_cancel.2.2.2 [exJobA] 1 0 exJobA (by simp)⟩

end Symgen
